import Mathlib

/-!
Shallow embedding of the MessagePack packing template
(`salt/msgpack/pack_template.h` together with the byte-order utilities of
`salt/msgpack/sysdep.h`).

Each packing operation of the C template composes a complete tag+payload
buffer locally and hands it to the sink callback `msgpack_pack_append_buffer`
exactly once per executed branch.  We embed every operation as a function
returning the list of append calls it performs, each call being the list of
bytes (as `Nat`, each `< 256`) handed to the sink.  `packOut` concatenates
the calls into the full emitted byte sequence.

Multi-byte stores in the C code are of the form
`*(uintN_t*)&buf[1] = _msgpack_beN(d)`: on a little-endian host `_msgpack_beN`
byte-swaps and the memory image of the result is the big-endian image of `d`;
on a big-endian host `_msgpack_beN` is the identity and the memory image is
again the big-endian image of `d`.  On either host kind the bytes written at
`buf[1..]` are therefore the big-endian bytes of `d mod 2^N`, which is what
`be16Bytes`/`be32Bytes`/`be64Bytes` compute.  `TAKE8_N(d)` reads the
low-order byte of `d` on either host kind, embedded as `take8`/`take8I`.

Signed C values are embedded as `Int`; a C conversion of a signed value to
`uintN_t` is `(d % 2^N).toNat` (Lean's `Int.emod` is non-negative for a
positive modulus, matching the C conversion rule).
-/

/-- Big-endian byte image of a 16-bit store of `d` (the value is first
reduced modulo `2^16`, as the C conversion to `uint16_t` does). -/
def be16Bytes (d : Nat) : List Nat :=
  [d / 256 % 256, d % 256]

/-- Big-endian byte image of a 32-bit store of `d` (reduced modulo `2^32`). -/
def be32Bytes (d : Nat) : List Nat :=
  [d / 16777216 % 256, d / 65536 % 256, d / 256 % 256, d % 256]

/-- Big-endian byte image of a 64-bit store of `d` (reduced modulo `2^64`). -/
def be64Bytes (d : Nat) : List Nat :=
  [d / 72057594037927936 % 256, d / 281474976710656 % 256,
   d / 1099511627776 % 256, d / 4294967296 % 256,
   d / 16777216 % 256, d / 65536 % 256, d / 256 % 256, d % 256]

/-- Low-order byte of an unsigned value: the `TAKE8_8/16/32/64` macros. -/
def take8 (d : Nat) : Nat := d % 256

/-- Low-order byte of a signed value (two's complement), as `TAKE8_*` reads
it from memory on either host kind. -/
def take8I (d : Int) : Nat := (d % 256).toNat

/-- Big-endian byte image of a 16-bit store of a signed value
(C conversion of `d` to `uint16_t`, then as `be16Bytes`). -/
def be16BytesI (d : Int) : List Nat := be16Bytes ((d % 65536).toNat)

/-- Big-endian byte image of a 32-bit store of a signed value. -/
def be32BytesI (d : Int) : List Nat := be32Bytes ((d % 4294967296).toNat)

/-- Big-endian byte image of a 64-bit store of a signed value. -/
def be64BytesI (d : Int) : List Nat := be64Bytes ((d % 18446744073709551616).toNat)

/-- Concatenation of the append calls an operation performs: the complete
byte sequence the sink receives. -/
def packOut (calls : List (List Nat)) : List Nat :=
  calls.foldr (fun a r => a ++ r) []

/-- Embedding of `msgpack_pack_real_uint8` (pack_template.h:48-58):
the list of sink append calls for an unsigned 8-bit input `d`. -/
def msgpack_pack_real_uint8 (d : Nat) : List (List Nat) :=
  if d < 128 then [[take8 d]]
  else [[0xcc, take8 d]]

/-- Embedding of `msgpack_pack_real_uint16` (pack_template.h:60-75). -/
def msgpack_pack_real_uint16 (d : Nat) : List (List Nat) :=
  if d < 128 then [[take8 d]]
  else if d < 256 then [[0xcc, take8 d]]
  else [0xcd :: be16Bytes d]

/-- Embedding of `msgpack_pack_real_uint32` (pack_template.h:77-101). -/
def msgpack_pack_real_uint32 (d : Nat) : List (List Nat) :=
  if d < 256 then
    if d < 128 then [[take8 d]]
    else [[0xcc, take8 d]]
  else
    if d < 65536 then [0xcd :: be16Bytes d]
    else [0xce :: be32Bytes d]

/-- Embedding of `msgpack_pack_real_uint64` (pack_template.h:103-132). -/
def msgpack_pack_real_uint64 (d : Nat) : List (List Nat) :=
  if d < 256 then
    if d < 128 then [[take8 d]]
    else [[0xcc, take8 d]]
  else
    if d < 65536 then [0xcd :: be16Bytes d]
    else if d < 4294967296 then [0xce :: be32Bytes d]
    else [0xcf :: be64Bytes d]

/-- Embedding of `msgpack_pack_real_int8` (pack_template.h:134-144). -/
def msgpack_pack_real_int8 (d : Int) : List (List Nat) :=
  if d < -32 then [[0xd0, take8I d]]
  else [[take8I d]]

/-- Embedding of `msgpack_pack_real_int16` (pack_template.h:146-174). -/
def msgpack_pack_real_int16 (d : Int) : List (List Nat) :=
  if d < -32 then
    if d < -128 then [0xd1 :: be16BytesI d]
    else [[0xd0, take8I d]]
  else if d < 128 then [[take8I d]]
  else
    if d < 256 then [[0xcc, take8I d]]
    else [0xcd :: be16BytesI d]

/-- Embedding of `msgpack_pack_real_int32` (pack_template.h:176-214). -/
def msgpack_pack_real_int32 (d : Int) : List (List Nat) :=
  if d < -32 then
    if d < -32768 then [0xd2 :: be32BytesI d]
    else if d < -128 then [0xd1 :: be16BytesI d]
    else [[0xd0, take8I d]]
  else if d < 128 then [[take8I d]]
  else
    if d < 256 then [[0xcc, take8I d]]
    else if d < 65536 then [0xcd :: be16BytesI d]
    else [0xce :: be32BytesI d]

/-- Embedding of `msgpack_pack_real_int64` (pack_template.h:216-272). -/
def msgpack_pack_real_int64 (d : Int) : List (List Nat) :=
  if d < -32 then
    if d < -32768 then
      if d < -2147483648 then [0xd3 :: be64BytesI d]
      else [0xd2 :: be32BytesI d]
    else
      if d < -128 then [0xd1 :: be16BytesI d]
      else [[0xd0, take8I d]]
  else if d < 128 then [[take8I d]]
  else
    if d < 65536 then
      if d < 256 then [[0xcc, take8I d]]
      else [0xcd :: be16BytesI d]
    else
      if d < 4294967296 then [0xce :: be32BytesI d]
      else [0xcf :: be64BytesI d]

/-- Embedding of `msgpack_pack_float` (pack_template.h:555-562), taking the
IEEE-754 binary32 bit pattern of the argument (the union in the C code is a
bit-pattern passthrough). -/
def msgpack_pack_float (bits : Nat) : List (List Nat) :=
  [0xca :: be32Bytes bits]

/-- Embedding of `msgpack_pack_double` (pack_template.h:564-571), taking the
IEEE-754 binary64 bit pattern of the argument. -/
def msgpack_pack_double (bits : Nat) : List (List Nat) :=
  [0xcb :: be64Bytes bits]

/-- Embedding of `msgpack_pack_nil` (pack_template.h:578-582). -/
def msgpack_pack_nil : List (List Nat) := [[0xc0]]

/-- Embedding of `msgpack_pack_true` (pack_template.h:589-593). -/
def msgpack_pack_true : List (List Nat) := [[0xc3]]

/-- Embedding of `msgpack_pack_false` (pack_template.h:595-599). -/
def msgpack_pack_false : List (List Nat) := [[0xc2]]

/-- Embedding of `msgpack_pack_array` (pack_template.h:606-620). -/
def msgpack_pack_array (n : Nat) : List (List Nat) :=
  if n < 16 then [[0x90 ||| n]]
  else if n < 65536 then [0xdc :: be16Bytes n]
  else [0xdd :: be32Bytes n]

/-- Embedding of `msgpack_pack_map` (pack_template.h:627-641). -/
def msgpack_pack_map (n : Nat) : List (List Nat) :=
  if n < 16 then [[0x80 ||| n]]
  else if n < 65536 then [0xde :: be16Bytes n]
  else [0xdf :: be32Bytes n]

/-- Embedding of `msgpack_pack_raw` (pack_template.h:648-662); `l` is the
`size_t` byte length (64-bit on the hosts where lengths `≥ 2^32` arise).
Note the final branch stores `_msgpack_be32(l)`, i.e. `l mod 2^32`, which
`be32Bytes` computes. -/
def msgpack_pack_raw (l : Nat) : List (List Nat) :=
  if l < 32 then [[0xa0 ||| l]]
  else if l < 65536 then [0xda :: be16Bytes l]
  else [0xdb :: be32Bytes l]

/-- Embedding of `msgpack_pack_raw_body` (pack_template.h:664-667): one
append call passing the `l` body bytes verbatim. -/
def msgpack_pack_raw_body (b : List Nat) : List (List Nat) := [b]

/-!
Specification-side definitions.

The following functions transcribe the spec's words (the threshold tables of
§4 of the specification, and the linear "narrowest form first" selection of
the claims), to be compared with the embedding of the source above.
-/

/-- Big-endian 2-byte image of a value `u < 2^16`, written the way the spec
describes it (high byte first). -/
def specBE2 (u : Nat) : List Nat := [u / 256, u % 256]

/-- Big-endian 4-byte image of a value `u < 2^32`. -/
def specBE4 (u : Nat) : List Nat :=
  [u / 16777216, u / 65536 % 256, u / 256 % 256, u % 256]

/-- Big-endian 8-byte image of a value `u < 2^64`. -/
def specBE8 (u : Nat) : List Nat :=
  [u / 72057594037927936, u / 281474976710656 % 256,
   u / 1099511627776 % 256, u / 4294967296 % 256,
   u / 16777216 % 256, u / 65536 % 256, u / 256 % 256, u % 256]

/-- Two's-complement representation of a signed value in `w` bits, as the
spec words it: a negative value is stored as `v + 2^w`. -/
def specTwos (w : Nat) (v : Int) : Nat :=
  if v < 0 then (v + 2 ^ w).toNat else v.toNat

/-- The claim's linear minimal-width selection for an unsigned 64-bit value:
always the narrowest of fixnum / 0xcc / 0xcd / 0xce / 0xcf whose range
contains `v`. -/
def specEncodeU64 (v : Nat) : List Nat :=
  if v < 128 then [v]
  else if v < 256 then [0xcc, v]
  else if v < 65536 then 0xcd :: specBE2 v
  else if v < 4294967296 then 0xce :: specBE4 v
  else 0xcf :: specBE8 v

/-- The claim's minimal-width selection for a signed 64-bit value: the
narrowest form among fixnum and the 8/16/32/64-bit signed and unsigned
forms whose range contains `v`; payloads two's complement, big-endian. -/
def specEncodeI64 (v : Int) : List Nat :=
  if v < 0 then
    if -32 ≤ v then [specTwos 8 v]
    else if -128 ≤ v then [0xd0, specTwos 8 v]
    else if -32768 ≤ v then 0xd1 :: specBE2 (specTwos 16 v)
    else if -2147483648 ≤ v then 0xd2 :: specBE4 (specTwos 32 v)
    else 0xd3 :: specBE8 (specTwos 64 v)
  else
    if v < 128 then [v.toNat]
    else if v < 256 then [0xcc, v.toNat]
    else if v < 65536 then 0xcd :: specBE2 v.toNat
    else if v < 4294967296 then 0xce :: specBE4 v.toNat
    else 0xcf :: specBE8 v.toNat

/-- The claim's array-header table: `0x90 | n` (written as the sum, the
4-bit count embedded in the tag) below 16, tag 0xdc with 2-byte big-endian
count below 65536, tag 0xdd with 4-byte big-endian count otherwise. -/
def specArrayHeader (n : Nat) : List Nat :=
  if n < 16 then [0x90 + n]
  else if n < 65536 then 0xdc :: specBE2 n
  else 0xdd :: specBE4 n

/-- The claim's map-header table: identical thresholds with tags
`0x80 | n`, 0xde, 0xdf. -/
def specMapHeader (n : Nat) : List Nat :=
  if n < 16 then [0x80 + n]
  else if n < 65536 then 0xde :: specBE2 n
  else 0xdf :: specBE4 n

/-- First byte handed to the sink by an operation (0 for an empty output;
every operation's output is in fact non-empty). -/
def firstTag (calls : List (List Nat)) : Nat := (packOut calls).headD 0

/-- The tag ranges exactly as claim C10 enumerates them
(0x00-0xbf, 0xc0, 0xc2/0xc3, 0xca-0xcf, 0xd0-0xd3, 0xda-0xdf). -/
def claimedTagRange (b : Nat) : Prop :=
  b ≤ 0xbf ∨ b = 0xc0 ∨ b = 0xc2 ∨ b = 0xc3 ∨ (0xca ≤ b ∧ b ≤ 0xcf) ∨
  (0xd0 ≤ b ∧ b ≤ 0xd3) ∨ (0xda ≤ b ∧ b ≤ 0xdf)

/-- The documented tag ranges of the wire format, including the negative
fixnum range 0xe0-0xff (spec §6) that claim C10's enumeration omits. -/
def documentedTag (b : Nat) : Prop :=
  claimedTagRange b ∨ (0xe0 ≤ b ∧ b ≤ 0xff)

/-- The unused (reserved) tag values named by claim C10. -/
def reservedTag (b : Nat) : Prop :=
  b = 0xc1 ∨ (0xc4 ≤ b ∧ b ≤ 0xc9) ∨ (0xd4 ≤ b ∧ b ≤ 0xd9)

/-- Embedding of the little-endian fallback of `_msgpack_be64`
(sysdep.h:75-83): the shift-and-mask byte swap, each left shift wrapping
modulo `2^64` as the C `uint64_t` arithmetic does. -/
def msgpack_be64_swap (x : Nat) : Nat :=
  (((x <<< 56) % 18446744073709551616) &&& 0xff00000000000000) |||
  (((x <<< 40) % 18446744073709551616) &&& 0x00ff000000000000) |||
  (((x <<< 24) % 18446744073709551616) &&& 0x0000ff0000000000) |||
  (((x <<< 8) % 18446744073709551616) &&& 0x000000ff00000000) |||
  ((x >>> 8) &&& 0x00000000ff000000) |||
  ((x >>> 24) &&& 0x0000000000ff0000) |||
  ((x >>> 40) &&& 0x000000000000ff00) |||
  ((x >>> 56) &&& 0x00000000000000ff)

/-- Embedding of `_msgpack_be64` on a big-endian host (sysdep.h:89): the
identity. -/
def msgpack_be64_bigendian (x : Nat) : Nat := x

/-- Byte `i` (least-significant first) of a value. -/
def byteAt (v i : Nat) : Nat := v / 2 ^ (8 * i) % 256

/-- The property claim C3 asserts of an operation's output: the leading
byte is a positive fixnum (0x00-0x7f) or one of the unsigned-width tags
0xcc/0xcd/0xce/0xcf, and in particular is not a signed-int tag
(0xd0-0xd3). -/
def unsignedFormTag (calls : List (List Nat)) : Prop :=
  (firstTag calls ≤ 0x7f ∨ firstTag calls = 0xcc ∨ firstTag calls = 0xcd ∨
   firstTag calls = 0xce ∨ firstTag calls = 0xcf) ∧
  ¬(0xd0 ≤ firstTag calls ∧ firstTag calls ≤ 0xd3)

/-!
Theorems settling the claims.
-/

/-- Helper: an operation that makes a single append call emits exactly that
call's bytes. -/
theorem packOut_one (a : List Nat) : packOut [a] = a := by
  simp [packOut]

/-- C5: concrete encodings — unsigned 300 gives `[0xcd, 0x01, 0x2c]`,
signed -1 gives `[0xff]`, signed -100 gives `[0xd0, 0x9c]`, nil gives
`[0xc0]`, the array header for count 3 is `[0x93]`, and the raw header for
length 40 is `[0xda, 0x00, 0x28]`. -/
theorem c5_concrete_encodings :
    packOut (msgpack_pack_real_uint16 300) = [0xcd, 0x01, 0x2c] ∧
    packOut (msgpack_pack_real_int64 (-1)) = [0xff] ∧
    packOut (msgpack_pack_real_int64 (-100)) = [0xd0, 0x9c] ∧
    packOut msgpack_pack_nil = [0xc0] ∧
    packOut (msgpack_pack_array 3) = [0x93] ∧
    packOut (msgpack_pack_raw 40) = [0xda, 0x00, 0x28] := by
  decide

set_option maxHeartbeats 1000000 in
/-- C1: minimality of integer encodings — for every unsigned 64-bit value
the encoder emits exactly the narrowest of fixnum / 0xcc / 0xcd / 0xce /
0xcf whose range contains the value, and for every signed 64-bit value the
narrowest among fixnum and the 8/16/32/64-bit signed and unsigned forms,
as `specEncodeU64` and `specEncodeI64` transcribe the claim. -/
theorem c1_integer_minimality :
    (∀ v : Nat, v < 18446744073709551616 →
      packOut (msgpack_pack_real_uint64 v) = specEncodeU64 v) ∧
    (∀ v : Int, -9223372036854775808 ≤ v → v < 9223372036854775808 →
      packOut (msgpack_pack_real_int64 v) = specEncodeI64 v) := by
  constructor
  · intro v hv
    simp only [msgpack_pack_real_uint64, specEncodeU64, take8,
      be16Bytes, be32Bytes, be64Bytes, specBE2, specBE4, specBE8]
    split_ifs <;> (rw [packOut_one]; simp only [List.cons.injEq,
      eq_self_iff_true, and_true, true_and]; try omega)
  · intro v h1 h2
    simp only [msgpack_pack_real_int64, specEncodeI64, take8I,
      be16BytesI, be32BytesI, be64BytesI, be16Bytes, be32Bytes, be64Bytes,
      specBE2, specBE4, specBE8, specTwos]
    split_ifs <;> (rw [packOut_one]; simp only [List.cons.injEq,
      eq_self_iff_true, and_true, true_and]; try omega)

/-- Witness for C1 at the concrete inputs 300 and -300. -/
theorem c1_integer_minimality_witness :
    packOut (msgpack_pack_real_uint64 300) = specEncodeU64 300 ∧
    packOut (msgpack_pack_real_int64 (-300)) = specEncodeI64 (-300) :=
  ⟨c1_integer_minimality.1 300 (by decide),
   c1_integer_minimality.2 (-300) (by decide) (by decide)⟩

/-- C7: width refinement — for every value representable in both widths
(`v < 2^16`) the 16-bit and the 64-bit unsigned encode operations append
byte-for-byte identical output. -/
theorem c7_width_refinement :
    ∀ v : Nat, v < 65536 →
      packOut (msgpack_pack_real_uint16 v) = packOut (msgpack_pack_real_uint64 v) := by
  intro v hv
  simp only [msgpack_pack_real_uint16, msgpack_pack_real_uint64]
  split_ifs <;> (first | rfl | (exfalso; omega))

/-- Witness for C7 at the concrete input 300. -/
theorem c7_width_refinement_witness :
    packOut (msgpack_pack_real_uint16 300) = packOut (msgpack_pack_real_uint64 300) :=
  c7_width_refinement 300 (by decide)

/-- Helper: masking with a byte mask `255 * 2^s` extracts the byte at
position `s` in place. -/
theorem and_byte_mask (x s : Nat) : x &&& 255 * 2 ^ s = x / 2 ^ s % 256 * 2 ^ s := by
  have h1 : x / 2 ^ s % 256 * 2 ^ s = ((x >>> s) &&& 255) <<< s := by
    rw [Nat.shiftLeft_eq, Nat.shiftRight_eq_div_pow]
    congr 2
    rw [show (255 : Nat) = 2 ^ 8 - 1 from rfl, Nat.and_pow_two_sub_one_eq_mod]
  rw [h1, show (255 : Nat) * 2 ^ s = 255 <<< s by rw [Nat.shiftLeft_eq]]
  apply Nat.eq_of_testBit_eq
  intro j
  simp only [Nat.testBit_and, Nat.testBit_shiftLeft, Nat.testBit_shiftRight]
  by_cases hj : s ≤ j
  · have e : s + (j - s) = j := by omega
    simp [ge_iff_le, hj, e, Bool.and_comm, Bool.and_left_comm]
  · simp [ge_iff_le, hj]

/-- Helper: `byteAt` in shift-and-mask form. -/
theorem byteAt_shift (v i : Nat) : byteAt v i = (v >>> (8 * i)) &&& 255 := by
  rw [byteAt, Nat.shiftRight_eq_div_pow,
    show (255 : Nat) = 2 ^ 8 - 1 from rfl, Nat.and_pow_two_sub_one_eq_mod]

/-- Helper: byte extraction distributes over bitwise or. -/
theorem byteAt_or (a b i : Nat) : byteAt (a ||| b) i = byteAt a i ||| byteAt b i := by
  rw [byteAt_shift, byteAt_shift, byteAt_shift]
  apply Nat.eq_of_testBit_eq
  intro j
  simp only [Nat.testBit_and, Nat.testBit_or, Nat.testBit_shiftRight]
  cases a.testBit (8 * i + j) <;> cases b.testBit (8 * i + j) <;> simp

/-- Helper: the byte decomposition of a single byte placed at byte
position `s`. -/
theorem byteAt_mul_pow (c s i : Nat) (hc : c < 256) :
    byteAt (c * 2 ^ (8 * s)) i = if s = i then c else 0 := by
  rcases Nat.lt_trichotomy s i with h | h | h
  · rw [if_neg (by omega), byteAt]
    have e : (8 : Nat) * i = 8 * s + 8 * (i - s) := by omega
    rw [e, pow_add, ← Nat.div_div_eq_div_mul,
      Nat.mul_div_cancel _ (pow_pos (by norm_num) _)]
    have hlt : c < 2 ^ (8 * (i - s)) := by
      calc c < 256 := hc
        _ = 2 ^ 8 := by norm_num
        _ ≤ 2 ^ (8 * (i - s)) := Nat.pow_le_pow_right (by norm_num) (by omega)
    rw [Nat.div_eq_of_lt hlt]
  · subst h
    rw [if_pos rfl, byteAt, Nat.mul_div_cancel _ (pow_pos (by norm_num) _),
      Nat.mod_eq_of_lt hc]
  · rw [if_neg (by omega), byteAt]
    have e : c * 2 ^ (8 * s) = c * 2 ^ (8 * (s - i)) * 2 ^ (8 * i) := by
      rw [Nat.mul_assoc, ← pow_add]
      congr 2
      omega
    rw [e, Nat.mul_div_cancel _ (pow_pos (by norm_num) _)]
    have e3 : (8 : Nat) * (s - i) = 8 + (8 * (s - i) - 8) := by omega
    rw [e3, pow_add, show (2 : Nat) ^ 8 = 256 by norm_num, mul_left_comm,
      Nat.mul_mod_right]

/-- Helper: the short array tag `0x90 | n` is `0x90 + n` for `n < 16`. -/
theorem or144_eq_add (n : Nat) (h : n < 16) : 144 ||| n = 144 + n := by
  interval_cases n <;> rfl

/-- Helper: the short map tag `0x80 | n` is `0x80 + n` for `n < 16`. -/
theorem or128_eq_add (n : Nat) (h : n < 16) : 128 ||| n = 128 + n := by
  interval_cases n <;> rfl

/-- Helper: the short raw tag `0xa0 | l` is `0xa0 + l` for `l < 32`. -/
theorem or160_eq_add (l : Nat) (h : l < 32) : 160 ||| l = 160 + l := by
  interval_cases l <;> rfl

/-- C2 counterexample: at v = -129, which lies in the claimed range
`-2^15 ≤ v < -2^7`, both signed encoders emit leading tag 0xd1, not the
claimed 0xd0. -/
theorem c2_counterexample :
    (packOut (msgpack_pack_real_int16 (-129))).headD 0 = 0xd1 ∧
    (packOut (msgpack_pack_real_int64 (-129))).headD 0 = 0xd1 ∧
    (0xd1 : Nat) ≠ 0xd0 := by
  decide

/-- C2 amended: for `-2^15 ≤ v < -2^7` the signed encoders emit the
16-bit signed form, tag 0xd1 with a 2-byte big-endian payload; the 8-bit
signed form (tag 0xd0 plus one byte) is emitted for `-2^7 ≤ v < -2^5`. -/
theorem c2_amended :
    (∀ v : Int, -32768 ≤ v → v < -128 →
      packOut (msgpack_pack_real_int16 v) = 0xd1 :: be16BytesI v ∧
      packOut (msgpack_pack_real_int64 v) = 0xd1 :: be16BytesI v) ∧
    (∀ v : Int, -128 ≤ v → v < -32 →
      packOut (msgpack_pack_real_int16 v) = [0xd0, take8I v] ∧
      packOut (msgpack_pack_real_int64 v) = [0xd0, take8I v]) := by
  refine ⟨fun v h1 h2 => ⟨?_, ?_⟩, fun v h1 h2 => ⟨?_, ?_⟩⟩ <;>
    (simp only [msgpack_pack_real_int16, msgpack_pack_real_int64]
     split_ifs <;> (rw [packOut_one]; all_goals first | rfl | (exfalso; omega)))

/-- Witness for C2 amended at the concrete inputs -300 and -100. -/
theorem c2_amended_witness :
    packOut (msgpack_pack_real_int16 (-300)) = 0xd1 :: be16BytesI (-300) ∧
    packOut (msgpack_pack_real_int64 (-100)) = [0xd0, take8I (-100)] :=
  ⟨(c2_amended.1 (-300) (by decide) (by decide)).1,
   (c2_amended.2 (-100) (by decide) (by decide)).2⟩

/-- C3: a non-negative signed input never takes a signed-int tag — at
every signed source width the leading byte is a positive fixnum or an
unsigned-width tag 0xcc/0xcd/0xce/0xcf. -/
theorem c3_nonneg_never_signed_tag :
    ∀ v : Int, 0 ≤ v →
      (v < 128 → unsignedFormTag (msgpack_pack_real_int8 v)) ∧
      (v < 32768 → unsignedFormTag (msgpack_pack_real_int16 v)) ∧
      (v < 2147483648 → unsignedFormTag (msgpack_pack_real_int32 v)) ∧
      (v < 9223372036854775808 → unsignedFormTag (msgpack_pack_real_int64 v)) := by
  intro v h0
  refine ⟨fun h => ?_, fun h => ?_, fun h => ?_, fun h => ?_⟩ <;>
    (simp only [msgpack_pack_real_int8, msgpack_pack_real_int16,
       msgpack_pack_real_int32, msgpack_pack_real_int64, unsignedFormTag,
       firstTag, take8I, be16BytesI, be32BytesI, be64BytesI,
       be16Bytes, be32Bytes, be64Bytes]
     split_ifs <;> (rw [packOut_one]; simp only [List.headD_cons]; first | omega | decide))

/-- Witness for C3 at the concrete input 300. -/
theorem c3_nonneg_never_signed_tag_witness :
    unsignedFormTag (msgpack_pack_real_int64 300) :=
  (c3_nonneg_never_signed_tag 300 (by decide)).2.2.2 (by decide)

/-- C4 counterexample: at length `l = 2^32` the raw-header operation does
append bytes (it does not reject), and the 4-byte length field it emits is
`2^32 mod 2^32 = 0` — a silent truncation. -/
theorem c4_counterexample :
    packOut (msgpack_pack_raw 4294967296) ≠ [] ∧
    packOut (msgpack_pack_raw 4294967296) = [0xdb, 0, 0, 0, 0] := by
  decide

/-- C4 amended: for every length `l ≥ 2^32` the raw-header operation does
not fail fast: it appends tag 0xdb followed by the 4-byte big-endian image
of `l mod 2^32`, silently truncating the length. -/
theorem c4_amended :
    ∀ l : Nat, 4294967296 ≤ l →
      packOut (msgpack_pack_raw l) = 0xdb :: be32Bytes (l % 4294967296) := by
  intro l h
  simp only [msgpack_pack_raw, be16Bytes, be32Bytes]
  split_ifs <;> (rw [packOut_one]; simp only [List.cons.injEq,
    eq_self_iff_true, and_true, true_and]; omega)

/-- Witness for C4 amended at the concrete length `2^32`. -/
theorem c4_amended_witness :
    packOut (msgpack_pack_raw 4294967296) =
      0xdb :: be32Bytes (4294967296 % 4294967296) :=
  c4_amended 4294967296 (by decide)

/-- C8: container headers — the array header is the single byte `0x90 | n`
for `n < 16`, tag 0xdc plus 2-byte big-endian `n` for `16 ≤ n < 65536`,
and tag 0xdd plus 4-byte big-endian `n` otherwise; the map header uses the
identical thresholds with `0x80 | n`, 0xde and 0xdf.  The header functions
take only the count `n`, so the emitted header depends on nothing else. -/
theorem c8_container_headers :
    ∀ n : Nat, n < 4294967296 →
      packOut (msgpack_pack_array n) = specArrayHeader n ∧
      packOut (msgpack_pack_map n) = specMapHeader n := by
  intro n hn
  constructor
  · simp only [msgpack_pack_array, specArrayHeader]
    split_ifs with h1 h2
    · rw [packOut_one, or144_eq_add n h1]
    · rw [packOut_one]
      simp only [be16Bytes, specBE2, List.cons.injEq, eq_self_iff_true,
        true_and, and_true]
      omega
    · rw [packOut_one]
      simp only [be32Bytes, specBE4, List.cons.injEq, eq_self_iff_true,
        true_and, and_true]
      omega
  · simp only [msgpack_pack_map, specMapHeader]
    split_ifs with h1 h2
    · rw [packOut_one, or128_eq_add n h1]
    · rw [packOut_one]
      simp only [be16Bytes, specBE2, List.cons.injEq, eq_self_iff_true,
        true_and, and_true]
      omega
    · rw [packOut_one]
      simp only [be32Bytes, specBE4, List.cons.injEq, eq_self_iff_true,
        true_and, and_true]
      omega

/-- Witness for C8 at the concrete count 65536. -/
theorem c8_container_headers_witness :
    packOut (msgpack_pack_array 65536) = specArrayHeader 65536 ∧
    packOut (msgpack_pack_map 65536) = specMapHeader 65536 :=
  c8_container_headers 65536 (by decide)

/-- C9: append atomicity — every operation, on every input, hands its
complete tag-plus-payload byte sequence to the sink in exactly one append
call (so a failing sink call leaves nothing of that value appended, and no
operation performs two or more partial appends). -/
theorem c9_single_append :
    (∀ d : Nat, (msgpack_pack_real_uint8 d).length = 1) ∧
    (∀ d : Nat, (msgpack_pack_real_uint16 d).length = 1) ∧
    (∀ d : Nat, (msgpack_pack_real_uint32 d).length = 1) ∧
    (∀ d : Nat, (msgpack_pack_real_uint64 d).length = 1) ∧
    (∀ d : Int, (msgpack_pack_real_int8 d).length = 1) ∧
    (∀ d : Int, (msgpack_pack_real_int16 d).length = 1) ∧
    (∀ d : Int, (msgpack_pack_real_int32 d).length = 1) ∧
    (∀ d : Int, (msgpack_pack_real_int64 d).length = 1) ∧
    (∀ bits : Nat, (msgpack_pack_float bits).length = 1) ∧
    (∀ bits : Nat, (msgpack_pack_double bits).length = 1) ∧
    msgpack_pack_nil.length = 1 ∧
    msgpack_pack_true.length = 1 ∧
    msgpack_pack_false.length = 1 ∧
    (∀ n : Nat, (msgpack_pack_array n).length = 1) ∧
    (∀ n : Nat, (msgpack_pack_map n).length = 1) ∧
    (∀ l : Nat, (msgpack_pack_raw l).length = 1) ∧
    (∀ b : List Nat, (msgpack_pack_raw_body b).length = 1) := by
  refine ⟨fun d => ?_, fun d => ?_, fun d => ?_, fun d => ?_, fun d => ?_,
    fun d => ?_, fun d => ?_, fun d => ?_, fun bits => ?_, fun bits => ?_,
    rfl, rfl, rfl, fun n => ?_, fun n => ?_, fun l => ?_, fun b => ?_⟩ <;>
    first
      | rfl
      | (simp only [msgpack_pack_real_uint8, msgpack_pack_real_uint16,
           msgpack_pack_real_uint32, msgpack_pack_real_uint64,
           msgpack_pack_real_int8, msgpack_pack_real_int16,
           msgpack_pack_real_int32, msgpack_pack_real_int64,
           msgpack_pack_array, msgpack_pack_map, msgpack_pack_raw]
         split_ifs <;> rfl)

/-- C6: byte-order determinism — encoding 0x0102 as a 16-bit unsigned
value yields exactly [0xcd, 0x01, 0x02]; the host-to-big-endian 64-bit
conversion is the identity on big-endian hosts; and on little-endian hosts
the shift-and-mask fallback is the full 8-byte reversal: output byte i
equals input byte 7-i. -/
theorem c6_byte_order :
    packOut (msgpack_pack_real_uint16 0x0102) = [0xcd, 0x01, 0x02] ∧
    (∀ x : Nat, msgpack_be64_bigendian x = x) ∧
    (∀ x : Nat, x < 18446744073709551616 → ∀ i : Nat, i < 8 →
      byteAt (msgpack_be64_swap x) i = byteAt x (7 - i)) := by
  refine ⟨by decide, fun x => rfl, ?_⟩
  intro x hx i hi
  have T7 : (x <<< 56) % 18446744073709551616 &&& 0xff00000000000000
      = x % 256 * 2 ^ (8 * 7) := by
    rw [Nat.shiftLeft_eq,
      show (0xff00000000000000 : Nat) = 255 * 2 ^ 56 by norm_num, and_byte_mask]
    norm_num
    omega
  have T6 : (x <<< 40) % 18446744073709551616 &&& 0x00ff000000000000
      = x / 256 % 256 * 2 ^ (8 * 6) := by
    rw [Nat.shiftLeft_eq,
      show (0x00ff000000000000 : Nat) = 255 * 2 ^ 48 by norm_num, and_byte_mask]
    norm_num
    omega
  have T5 : (x <<< 24) % 18446744073709551616 &&& 0x0000ff0000000000
      = x / 65536 % 256 * 2 ^ (8 * 5) := by
    rw [Nat.shiftLeft_eq,
      show (0x0000ff0000000000 : Nat) = 255 * 2 ^ 40 by norm_num, and_byte_mask]
    norm_num
    omega
  have T4 : (x <<< 8) % 18446744073709551616 &&& 0x000000ff00000000
      = x / 16777216 % 256 * 2 ^ (8 * 4) := by
    rw [Nat.shiftLeft_eq,
      show (0x000000ff00000000 : Nat) = 255 * 2 ^ 32 by norm_num, and_byte_mask]
    norm_num
    omega
  have T3 : (x >>> 8) &&& 0x00000000ff000000
      = x / 4294967296 % 256 * 2 ^ (8 * 3) := by
    rw [Nat.shiftRight_eq_div_pow,
      show (0x00000000ff000000 : Nat) = 255 * 2 ^ 24 by norm_num, and_byte_mask]
    norm_num
    omega
  have T2 : (x >>> 24) &&& 0x0000000000ff0000
      = x / 1099511627776 % 256 * 2 ^ (8 * 2) := by
    rw [Nat.shiftRight_eq_div_pow,
      show (0x0000000000ff0000 : Nat) = 255 * 2 ^ 16 by norm_num, and_byte_mask]
    norm_num
    omega
  have T1 : (x >>> 40) &&& 0x000000000000ff00
      = x / 281474976710656 % 256 * 2 ^ (8 * 1) := by
    rw [Nat.shiftRight_eq_div_pow,
      show (0x000000000000ff00 : Nat) = 255 * 2 ^ 8 by norm_num, and_byte_mask]
    norm_num
    omega
  have T0 : (x >>> 56) &&& 0x00000000000000ff
      = x / 72057594037927936 % 256 * 2 ^ (8 * 0) := by
    rw [Nat.shiftRight_eq_div_pow,
      show (0x00000000000000ff : Nat) = 255 * 2 ^ 0 by norm_num, and_byte_mask]
    norm_num
  rw [msgpack_be64_swap, T7, T6, T5, T4, T3, T2, T1, T0]
  simp only [byteAt_or]
  rw [byteAt_mul_pow _ _ _ (Nat.mod_lt _ (by norm_num)),
    byteAt_mul_pow _ _ _ (Nat.mod_lt _ (by norm_num)),
    byteAt_mul_pow _ _ _ (Nat.mod_lt _ (by norm_num)),
    byteAt_mul_pow _ _ _ (Nat.mod_lt _ (by norm_num)),
    byteAt_mul_pow _ _ _ (Nat.mod_lt _ (by norm_num)),
    byteAt_mul_pow _ _ _ (Nat.mod_lt _ (by norm_num)),
    byteAt_mul_pow _ _ _ (Nat.mod_lt _ (by norm_num)),
    byteAt_mul_pow _ _ _ (Nat.mod_lt _ (by norm_num))]
  have hcase : i = 0 ∨ i = 1 ∨ i = 2 ∨ i = 3 ∨ i = 4 ∨ i = 5 ∨ i = 6 ∨ i = 7 := by
    omega
  rcases hcase with rfl | rfl | rfl | rfl | rfl | rfl | rfl | rfl <;>
    norm_num [byteAt]

/-- Witness for C6 at the concrete input 0x0102030405060708 and byte
index 0. -/
theorem c6_byte_order_witness :
    byteAt (msgpack_be64_swap 0x0102030405060708) 0 =
      byteAt 0x0102030405060708 7 :=
  c6_byte_order.2.2 0x0102030405060708 (by decide) 0 (by decide)

/-- C10 counterexample: encoding signed -1 emits the single byte 0xff
(negative fixnum), whose value lies outside the tag ranges the claim
enumerates (the enumeration omits the documented negative-fixnum range
0xe0-0xff). -/
theorem c10_counterexample :
    (packOut (msgpack_pack_real_int8 (-1))).headD 0 = 0xff ∧
    ¬ claimedTagRange 0xff := by
  constructor
  · decide
  · unfold claimedTagRange
    decide

/-- C10 amended: for every operation and every input in the source type's
range, the leading emitted byte lies in the documented tag ranges — the
claim's enumeration extended with the negative-fixnum range 0xe0-0xff —
and is never one of the reserved values 0xc1, 0xc4-0xc9, 0xd4-0xd9. -/
theorem c10_amended :
    (∀ d : Nat, documentedTag (firstTag (msgpack_pack_real_uint8 d)) ∧
      ¬ reservedTag (firstTag (msgpack_pack_real_uint8 d))) ∧
    (∀ d : Nat, documentedTag (firstTag (msgpack_pack_real_uint16 d)) ∧
      ¬ reservedTag (firstTag (msgpack_pack_real_uint16 d))) ∧
    (∀ d : Nat, documentedTag (firstTag (msgpack_pack_real_uint32 d)) ∧
      ¬ reservedTag (firstTag (msgpack_pack_real_uint32 d))) ∧
    (∀ d : Nat, documentedTag (firstTag (msgpack_pack_real_uint64 d)) ∧
      ¬ reservedTag (firstTag (msgpack_pack_real_uint64 d))) ∧
    (∀ d : Int, -128 ≤ d → d < 128 →
      documentedTag (firstTag (msgpack_pack_real_int8 d)) ∧
      ¬ reservedTag (firstTag (msgpack_pack_real_int8 d))) ∧
    (∀ d : Int, documentedTag (firstTag (msgpack_pack_real_int16 d)) ∧
      ¬ reservedTag (firstTag (msgpack_pack_real_int16 d))) ∧
    (∀ d : Int, documentedTag (firstTag (msgpack_pack_real_int32 d)) ∧
      ¬ reservedTag (firstTag (msgpack_pack_real_int32 d))) ∧
    (∀ d : Int, documentedTag (firstTag (msgpack_pack_real_int64 d)) ∧
      ¬ reservedTag (firstTag (msgpack_pack_real_int64 d))) ∧
    (∀ bits : Nat, documentedTag (firstTag (msgpack_pack_float bits)) ∧
      ¬ reservedTag (firstTag (msgpack_pack_float bits))) ∧
    (∀ bits : Nat, documentedTag (firstTag (msgpack_pack_double bits)) ∧
      ¬ reservedTag (firstTag (msgpack_pack_double bits))) ∧
    (documentedTag (firstTag msgpack_pack_nil) ∧
      ¬ reservedTag (firstTag msgpack_pack_nil)) ∧
    (documentedTag (firstTag msgpack_pack_true) ∧
      ¬ reservedTag (firstTag msgpack_pack_true)) ∧
    (documentedTag (firstTag msgpack_pack_false) ∧
      ¬ reservedTag (firstTag msgpack_pack_false)) ∧
    (∀ n : Nat, documentedTag (firstTag (msgpack_pack_array n)) ∧
      ¬ reservedTag (firstTag (msgpack_pack_array n))) ∧
    (∀ n : Nat, documentedTag (firstTag (msgpack_pack_map n)) ∧
      ¬ reservedTag (firstTag (msgpack_pack_map n))) ∧
    (∀ l : Nat, documentedTag (firstTag (msgpack_pack_raw l)) ∧
      ¬ reservedTag (firstTag (msgpack_pack_raw l))) := by
  refine ⟨fun d => ?_, fun d => ?_, fun d => ?_, fun d => ?_,
    fun d h1 h2 => ?_, fun d => ?_, fun d => ?_, fun d => ?_,
    fun bits => ?_, fun bits => ?_, ?_, ?_, ?_,
    fun n => ?_, fun n => ?_, fun l => ?_⟩ <;>
    (simp only [msgpack_pack_real_uint8, msgpack_pack_real_uint16,
       msgpack_pack_real_uint32, msgpack_pack_real_uint64,
       msgpack_pack_real_int8, msgpack_pack_real_int16,
       msgpack_pack_real_int32, msgpack_pack_real_int64,
       msgpack_pack_float, msgpack_pack_double, msgpack_pack_nil,
       msgpack_pack_true, msgpack_pack_false, msgpack_pack_array,
       msgpack_pack_map, msgpack_pack_raw, firstTag, documentedTag,
       claimedTagRange, reservedTag, take8, take8I]
     try split_ifs
     all_goals rw [packOut_one]
     all_goals simp only [List.headD_cons]
     all_goals first
       | omega
       | decide
       | (rw [or144_eq_add _ (by omega)]; omega)
       | (rw [or128_eq_add _ (by omega)]; omega)
       | (rw [or160_eq_add _ (by omega)]; omega))

/-- Witness for C10 amended at the concrete signed 8-bit input -1. -/
theorem c10_amended_witness :
    documentedTag (firstTag (msgpack_pack_real_int8 (-1))) ∧
    ¬ reservedTag (firstTag (msgpack_pack_real_int8 (-1))) :=
  c10_amended.2.2.2.2.1 (-1) (by decide) (by decide)
